import Mathlib

/- Verification of the MobiCat utility library (mobicat_python_utils/utils.py).

   The file shallowly embeds the library's dataset catalog builder, grouped
   aggregator, mobility reducers and time-window filters as executable Lean
   functions over lists, and proves the documented contracts about them.

   Modelling conventions, shared by all definitions below:
   * a pandas DataFrame is a list of rows, in frame order;
   * `df.groupby(keys)["viajes"].sum().reset_index()` is modelled by
     `groupbySum`: one output row per distinct key, keys in ascending order
     (pandas groups with `sort=True` by default), value = sum of the group;
   * Python string comparison (used by `sorted`, `min`/`max` and pandas key
     ordering) is code-point lexicographic; it is modelled by the executable
     comparator `clLt` on the underlying character lists, because Lean's
     built-in `String.ltb` does not reduce in the kernel;
   * Python exceptions are modelled with `Except String`, the message naming
     the exception class raised by the source. -/

namespace MobiCat

/-- Code-point lexicographic strict order on character lists: the order Python
uses to compare two strings (shorter strict prefixes sort first). -/
def clLt : List Char → List Char → Bool
  | [], [] => false
  | [], _ :: _ => true
  | _ :: _, [] => false
  | a :: as, b :: bs => decide (a < b) || (a == b && clLt as bs)

/-- Python `min` of two strings under code-point order (ties keep the first). -/
def pymin (a b : String) : String := if clLt b.data a.data then b else a

/-- Python `max` of two strings under code-point order. -/
def pymax (a b : String) : String := if clLt b.data a.data then a else b

/-- Python `tuple(sorted([a, b]))` for two strings: Python's sort swaps the two
elements exactly when the second compares strictly below the first. -/
def sortedPair (a b : String) : String × String :=
  if clLt b.data a.data then (b, a) else (a, b)

/-- Ascending key order pandas uses when grouping or sorting on a pair of
string columns: lexicographic on the first column, then the second. -/
def pairLe (a b : String × String) : Bool :=
  clLt a.1.data b.1.data || (a.1 == b.1 && !clLt b.2.data a.2.data)

/-- The proposition `le a b = true`, turning a boolean comparator into the
relation expected by `List.insertionSort`. -/
def boolRel {α : Type} (le : α → α → Bool) : α → α → Prop :=
  fun a b => le a b = true

instance {α : Type} (le : α → α → Bool) : DecidableRel (boolRel le) :=
  fun a b => inferInstanceAs (Decidable (le a b = true))

/-- The rows of `rows` whose key equals `k` (a pandas group). -/
def filterKey {κ : Type} [DecidableEq κ] (rows : List (κ × Int)) (k : κ) :
    List (κ × Int) :=
  rows.filter fun p => decide (p.1 = k)

/-- Total trip count of the group of `k`. -/
def keySum {κ : Type} [DecidableEq κ] (rows : List (κ × Int)) (k : κ) : Int :=
  ((filterKey rows k).map Prod.snd).sum

/-- Model of `df.groupby(keys)["viajes"].sum().reset_index()` on keyed rows: one row per
distinct key, keys sorted ascending by `le`, each with its group's sum. -/
def groupbySum {κ : Type} [DecidableEq κ] (le : κ → κ → Bool)
    (rows : List (κ × Int)) : List (κ × Int) :=
  (((rows.map Prod.fst).dedup).insertionSort (boolRel le)).map
    fun k => (k, keySum rows k)

/-- A row of a type #2 (Movilidad Municipios) mobility DataFrame: one directed
trip-count edge between municipalities.  `viajes` is an integer after the
aggregator's `astype({"viajes": "int"})` coercion. -/
structure TripRow where
  municipio_origen : String
  municipio_origen_name : String
  municipio_destino : String
  municipio_destino_name : String
  viajes : Int
deriving DecidableEq, Repr

/-- A row of the output of `group_by_origin_destination_directed`: columns
`municipio_origen`, `municipio_destino`, `viajes`. -/
structure PairRow where
  municipio_origen : String
  municipio_destino : String
  viajes : Int
deriving DecidableEq, Repr

/-- A row of the output of `group_by_origin_destination_undirected`: columns
`municipio_1`, `municipio_2`, `viajes`. -/
structure UPairRow where
  municipio_1 : String
  municipio_2 : String
  viajes : Int
deriving DecidableEq, Repr

/-- A row of the output of `group_by_municipality` (and, up to the column
renaming applied there, of `group_by_municipality_type`): columns `municipio`,
`municipio_name`, `viajes`. -/
structure MuniRow where
  municipio : String
  municipio_name : String
  viajes : Int
deriving DecidableEq, Repr

/-- The `_type` argument of `group_by_municipality_type`:
`Literal["origen", "destino"]`. -/
inductive MuniType where
  | origen
  | destino
deriving DecidableEq, Repr

/-- Source `group_by_municipality_type(df, _type)`: groups by the
(`municipio_{_type}`, `municipio_{_type}_name`) columns and sums `viajes`.
The two key columns of the output are represented by the `municipio` and
`municipio_name` fields of `MuniRow` (they are the columns that
`group_by_municipality` renames to exactly those names). -/
def group_by_municipality_type (df : List TripRow) (_type : MuniType) :
    List MuniRow :=
  match _type with
  | .origen =>
      (groupbySum pairLe (df.map fun r =>
        ((r.municipio_origen, r.municipio_origen_name), r.viajes))).map
        fun p => ⟨p.1.1, p.1.2, p.2⟩
  | .destino =>
      (groupbySum pairLe (df.map fun r =>
        ((r.municipio_destino, r.municipio_destino_name), r.viajes))).map
        fun p => ⟨p.1.1, p.1.2, p.2⟩

/-- Source `group_by_municipality(df)`: concatenates the origin and destination
groupings (both renamed to `municipio`/`municipio_name`), then re-groups by
(`municipio`, `municipio_name`) and sums `viajes`. -/
def group_by_municipality (df : List TripRow) : List MuniRow :=
  let origin_df := group_by_municipality_type df .origen
  let destination_df := group_by_municipality_type df .destino
  (groupbySum pairLe ((origin_df ++ destination_df).map fun r =>
    ((r.municipio, r.municipio_name), r.viajes))).map
    fun p => ⟨p.1.1, p.1.2, p.2⟩

/-- Source `group_by_origin_destination_directed(mobility_df)`: groups by
(`municipio_origen`, `municipio_destino`) and sums `viajes`. -/
def group_by_origin_destination_directed (mobility_df : List TripRow) :
    List PairRow :=
  (groupbySum pairLe (mobility_df.map fun r =>
    ((r.municipio_origen, r.municipio_destino), r.viajes))).map
    fun p => ⟨p.1.1, p.1.2, p.2⟩

/-- Source `group_by_origin_destination_undirected(mobility_df)`: takes the directed
grouping, canonicalizes every row's endpoint pair with
`tuple(sorted([origen, destino]))` into columns `municipio_1`/`municipio_2`,
then re-groups by the canonical pair and sums `viajes`. -/
def group_by_origin_destination_undirected (mobility_df : List TripRow) :
    List UPairRow :=
  let directed_edges := group_by_origin_destination_directed mobility_df
  let undirected_edges := directed_edges.map fun node =>
    (sortedPair node.municipio_origen node.municipio_destino, node.viajes)
  (groupbySum pairLe undirected_edges).map fun p => ⟨p.1.1, p.1.2, p.2⟩

/-- Total `viajes` of the rows of `df` directed from `a` to `b`: the directed
flow a claim compares the undirected weights against. -/
def directedSum (df : List TripRow) (a b : String) : Int :=
  ((df.filter fun r =>
    r.municipio_origen == a && r.municipio_destino == b).map (·.viajes)).sum

/-- Total `viajes` of the rows of `df` whose origin columns are (`m`, `n`):
the origin-role partial sum of a municipality. -/
def originSum (df : List TripRow) (m n : String) : Int :=
  ((df.filter fun r =>
    r.municipio_origen == m && r.municipio_origen_name == n).map (·.viajes)).sum

/-- Total `viajes` of the rows of `df` whose destination columns are (`m`, `n`):
the destination-role partial sum of a municipality. -/
def destinationSum (df : List TripRow) (m n : String) : Int :=
  ((df.filter fun r =>
    r.municipio_destino == m && r.municipio_destino_name == n).map (·.viajes)).sum

/-- Reads a `group_by_origin_destination_undirected` output row back as a
mobility row, relabelling column `municipio_1` as `municipio_origen` and
`municipio_2` as `municipio_destino` (the name columns, which the pair
reducers never read, are left blank). -/
def relabel_undirected (u : UPairRow) : TripRow :=
  ⟨u.municipio_1, "", u.municipio_2, "", u.viajes⟩

/-- A calendar date: the value of a parsed `pd.Timestamp` such as
`pd.Timestamp("2023-01-31")`, reduced to its year/month/day components.
`pd.Timestamp` comparison is chronological, which on well-formed dates is the
lexicographic order on (year, month, day). -/
structure Date where
  year : Nat
  month : Nat
  day : Nat
deriving DecidableEq, Repr

instance : LE Date :=
  ⟨fun a b => a.year < b.year ∨ (a.year = b.year ∧
    (a.month < b.month ∨ (a.month = b.month ∧ a.day ≤ b.day)))⟩

instance (a b : Date) : Decidable (a ≤ b) :=
  inferInstanceAs (Decidable (a.year < b.year ∨ (a.year = b.year ∧
    (a.month < b.month ∨ (a.month = b.month ∧ a.day ≤ b.day)))))

/-- A row of a day-indexed table: the `day` column (datetime dtype) plus the
summed `viajes` column. -/
structure DayRow where
  day : Date
  viajes : Int
deriving DecidableEq, Repr

/-- Source `filter_by_day(day_df, start, end)`: boolean-mask selection
`day_df[(day_df["day"] >= pd.Timestamp(start)) & (day_df["day"] <= pd.Timestamp(end))]`.
The source's `end` parameter is a Lean keyword and is rendered `stop`; the
bounds are taken as already-parsed `Date`s (the claims assume well-formed
bound strings). -/
def filter_by_day (day_df : List DayRow) (start : Date := ⟨2023, 1, 1⟩)
    (stop : Date := ⟨2023, 1, 31⟩) : List DayRow :=
  day_df.filter fun r => decide (start ≤ r.day) && decide (r.day ≤ stop)

/-- Python `==` between an `int` and a `str`: always `False` (no coercion
between the two types).  This is what
`day_df["day"].dt.year == year` evaluates to elementwise when `year` is the
string `"2023"` of the source's signature. -/
def py_int_eq_str (_ : Nat) (_ : String) : Bool := false

/-- Source `filter_day_by_year(day_df, year)`: selects rows with
`day_df["day"].dt.year == year`, where the source annotates and defaults
`year` as the string `"2023"` while `.dt.year` is an integer. -/
def filter_day_by_year (day_df : List DayRow) (year : String := "2023") :
    List DayRow :=
  day_df.filter fun r => py_int_eq_str r.day.year year

/-- Source `filter_day_by_year_month(day_df, year, month)`: selects rows whose day
has exactly the given integer year and month. -/
def filter_day_by_year_month (day_df : List DayRow) (year : Nat := 2023)
    (month : Nat := 1) : List DayRow :=
  day_df.filter fun r => r.day.year == year && r.day.month == month

/-- One leaf period directory seen by `os.walk`: its trailing path component
(the `YYYY-MM` name) and its regular files as (filename, size-in-bytes) pairs
(sizes as `os.path.getsize` reports them). -/
structure PeriodDir where
  name : String
  files : List (String × Nat)
deriving DecidableEq, Repr

/-- The filesystem seen by `get_datasets_names`: whether the root path exists
(`os.path.exists`), the root path string, and the period subdirectories in
`os.walk` order.  The model covers the documented two-level layout (a root
whose immediate subdirectories are the leaf period directories); with at least
one subdirectory the root itself is skipped by the `len(dirnames) > 0` check. -/
structure RootFS where
  present : Bool
  root : String
  periods : List PeriodDir
deriving DecidableEq, Repr

/-- One record of the catalog produced by `get_datasets_names`: the dict
`{"year", "month", "type", "path", "size_in_bytes"}`.  `year` and `month` are
still the strings split from the directory name at this stage. -/
structure DatasetEntry where
  year : String
  month : String
  type : String
  path : String
  size_in_bytes : Nat
deriving DecidableEq, Repr

/-- Python `str.split(s, sep)` for a one-character separator, on the
character list of `s` (`"2023-01" -> ["2023", "01"]`, `"x" -> ["x"]`,
`"a--b" -> ["a", "", "b"]`). -/
def splitOnChar (sep : Char) : List Char → List (List Char)
  | [] => [[]]
  | c :: cs =>
    if c = sep then [] :: splitOnChar sep cs
    else
      match splitOnChar sep cs with
      | [] => [[c]]
      | p :: ps => (c :: p) :: ps

/-- Model of `os.path.join` of a directory and one further component, with a neutral
separator standing for `os.sep`. -/
def pathJoin (a b : String) : String := a ++ "/" ++ b

/-- Ascending filename order used by `sorted(filenames)`: Python code-point
string comparison of the names (sizes ride along with their file). -/
def fileLe (a b : String × Nat) : Bool := !clLt b.1.data a.1.data

/-- The fixed role sequence `file_types = ["barrios", "mun_barrios",
"municipios"]` zipped positionally against the sorted filenames. -/
def file_types : List String := ["barrios", "mun_barrios", "municipios"]

/-- Processing of one leaf directory inside `get_datasets_names`'s walk loop:
split the trailing path component on `-` into `(year, month)` (a Python
`ValueError` if the split does not have exactly two parts), sort the
filenames, and emit one catalog record per entry of `file_types`, indexing
the sorted filenames positionally (an `IndexError` if there are fewer than
three files; extra files beyond the third are silently ignored). -/
def processPeriod (root : String) (d : PeriodDir) :
    Except String (List DatasetEntry) :=
  match splitOnChar '-' d.name.data with
  | [ycs, mcs] =>
      let year := String.mk ycs
      let month := String.mk mcs
      let dataset_dir := pathJoin root d.name
      match d.files.insertionSort (boolRel fileLe) with
      | f1 :: f2 :: f3 :: _ =>
          .ok [⟨year, month, "barrios", pathJoin dataset_dir f1.1, f1.2⟩,
               ⟨year, month, "mun_barrios", pathJoin dataset_dir f2.1, f2.2⟩,
               ⟨year, month, "municipios", pathJoin dataset_dir f3.1, f3.2⟩]
      | _ => .error "IndexError"
  | _ => .error "ValueError"

/-- The walk loop of `get_datasets_names` over the leaf period directories,
appending each directory's three records in walk order; the first exception
aborts the whole walk (the accumulated list is discarded). -/
def walkPeriods (root : String) : List PeriodDir →
    Except String (List DatasetEntry)
  | [] => .ok []
  | d :: ds => do
      let es ← processPeriod root d
      let rest ← walkPeriods root ds
      .ok (es ++ rest)

/-- Source `get_datasets_names(all_datasets_directory)`: raises
`Exception("Path ... does not exists")` when the root does not exist,
otherwise walks the period directories and returns the catalog records. -/
def get_datasets_names (fs : RootFS) : Except String (List DatasetEntry) :=
  if fs.present = false then .error "Exception: Path does not exists"
  else walkPeriods fs.root fs.periods

/-- The key order of `.sort_values(by=["year", "month"])` at the point where
both columns still hold strings: code-point lexicographic on `year`, then on
`month`. -/
def entryLe (a b : DatasetEntry) : Bool := pairLe (a.year, a.month) (b.year, b.month)

/-- A catalog record after `.astype({"year": "int16", "month": "int8"})`. -/
structure DatasetEntryInt where
  year : Nat
  month : Nat
  type : String
  path : String
  size_in_bytes : Nat
deriving DecidableEq, Repr

/-- Decimal digit parse of a character list (the numeric part of pandas
`astype` on a string column); `none` models the `ValueError` on a
non-numeric string. -/
def parseDigits : List Char → Option Nat
  | [] => none
  | cs => go cs 0
where
  go : List Char → Nat → Option Nat
    | [], acc => some acc
    | c :: cs, acc =>
      if '0' ≤ c ∧ c ≤ '9' then go cs (acc * 10 + (c.toNat - '0'.toNat))
      else none

/-- Model of `astype({"year": "int16", "month": "int8"})` on one record (the claims
never exercise the int16/int8 overflow edge, which the model leaves out). -/
def astypeEntry (e : DatasetEntry) : Except String DatasetEntryInt :=
  match parseDigits e.year.data, parseDigits e.month.data with
  | some y, some m => .ok ⟨y, m, e.type, e.path, e.size_in_bytes⟩
  | _, _ => .error "ValueError"

/-- Source `get_datasets_names_df(all_datasets_directory)`: builds the catalog,
sorts it by the (`year`, `month`) string columns, re-indexes (which does not
change row content) and converts `year`/`month` to integers. -/
def get_datasets_names_df (fs : RootFS) :
    Except String (List DatasetEntryInt) := do
  let datasets_names ← get_datasets_names fs
  (datasets_names.insertionSort (boolRel entryLe)).mapM astypeEntry

/-- A leaf period directory the walk loop accepts: its name splits on `-`
into exactly two parts and it holds at least three files. -/
def periodWellFormed (d : PeriodDir) : Bool :=
  (splitOnChar '-' d.name.data).length == 2 && decide (3 ≤ d.files.length)

/-- A CSV row as `pd.read_csv(path, dtype=str)` delivers it: column name to
string cell, in column order. -/
abbrev CsvRow := List (String × String)

/-- Cell lookup by column name; a missing column is pandas' `KeyError`. -/
def rowLookup (row : CsvRow) (c : String) : Except String String :=
  match row.find? (fun p => p.1 == c) with
  | some p => .ok p.2
  | none => .error "KeyError"

/-- Integer parse of a string cell: the per-value part of
`astype({"viajes": "int"})`; an unparseable value is pandas' `ValueError`. -/
def parseIntCell (s : String) : Except String Int :=
  match s.data with
  | '-' :: cs =>
      match parseDigits cs with
      | some n => .ok (-(n : Int))
      | none => .error "ValueError"
  | cs =>
      match parseDigits cs with
      | some n => .ok (n : Int)
      | none => .error "ValueError"

/-- Ascending order on multi-column string group keys (pandas sorts group
keys ascending, column by column). -/
def strListLe : List String → List String → Bool
  | [], _ => true
  | _ :: _, [] => false
  | a :: as, b :: bs =>
    if a == b then strListLe as bs else clLt a.data b.data

/-- The per-file body of `full_datasets_groupby`'s loop for one loaded CSV
table: coerce the `viajes` column to integer
(`df.astype({"viajes": "int"})`), then
`df.groupby(by)["viajes"].sum().reset_index()`, each output row being the
group-key tuple for the `by` columns plus the summed count. -/
def file_groupby (by_ : List String) (table : List CsvRow) :
    Except String (List (List String × Int)) := do
  let vals ← table.mapM fun row => do
    let s ← rowLookup row "viajes"
    parseIntCell s
  let keys ← table.mapM fun row => by_.mapM (rowLookup row)
  .ok (groupbySum strListLe (keys.zip vals))

/-- The accumulation loop of `full_datasets_groupby`: per cataloged file,
group the file's table and concatenate the per-file results in catalog
order (the initial empty frame contributes nothing). -/
def aggregateFiles (by_ : List String) :
    List (String × List CsvRow) → Except String (List (List String × Int))
  | [] => .ok []
  | f :: fs => do
      let g ← file_groupby by_ f.2
      let rest ← aggregateFiles by_ fs
      .ok (g ++ rest)

/-- Source `full_datasets_groupby(datasets_names_df, by)`: iterates the cataloged
paths in order, loads each CSV (modelled by pairing each path with its
table), groups it by the `by` columns, and concatenates all per-file grouped
results; the final `reset_index` renumbering does not change row content.
The `verbose` progress print is a console side effect outside the model. -/
def full_datasets_groupby (files : List (String × List CsvRow))
    (by_ : List String) : Except String (List (List String × Int)) :=
  aggregateFiles by_ files

/-- A cell of a dynamically-typed DataFrame: pandas object columns hold the
Python values themselves, here either a string or an integer.  Python `==`
between values of different types is `False`, which is exactly the derived
equality on this type. -/
inductive PVal where
  | s (v : String)
  | i (v : Int)
deriving DecidableEq, Repr

/-- A row of a dynamically-typed DataFrame: column name to cell value, in
column order.  This column-indexed model of the same source functions captures
what pandas does when a frame does not carry the expected columns. -/
abbrev PRow := List (String × PVal)

/-- Cell lookup by column name; a missing column is pandas' `KeyError`. -/
def pgetCol (row : PRow) (c : String) : Except String PVal :=
  match row.find? (fun p => p.1 == c) with
  | some p => .ok p.2
  | none => .error "KeyError"

/-- A fixed ascending order on cells (strings by code points, integers by
value).  Group keys are homogeneous in every run the claims exercise, so the
relative order of the two kinds is never observable. -/
def pvalLe : PVal → PVal → Bool
  | .s a, .s b => !clLt b.data a.data
  | .i a, .i b => decide (a ≤ b)
  | .s _, .i _ => true
  | .i _, .s _ => false

/-- Ascending order on multi-column dynamic group keys. -/
def pvalListLe : List PVal → List PVal → Bool
  | [], _ => true
  | _ :: _, [] => false
  | a :: as, b :: bs => if a == b then pvalListLe as bs else pvalLe a b

/-- Model of `df.groupby(keys)["viajes"].sum().reset_index()` on a dynamically-typed
frame: per row, read the key cells and the `viajes` cell (a missing column is
a `KeyError`), then group and sum.  The model is restricted to integer
`viajes` cells, the only case the library produces (upstream `astype` or a
previous reducer); other cell types are out of the model's scope. -/
def u_groupby_sum (keys : List String) (df : List PRow) :
    Except String (List PRow) := do
  let pairs ← df.mapM fun row => do
    let kv ← keys.mapM (pgetCol row)
    let v ← pgetCol row "viajes"
    match v with
    | .i n => pure (kv, n)
    | .s _ => Except.error "TypeError"
  pure ((groupbySum pvalListLe pairs).map
    fun p => keys.zip p.1 ++ [("viajes", PVal.i p.2)])

/-- Source `group_by_origin_destination_directed` on a dynamically-typed frame:
`df.groupby(["municipio_origen", "municipio_destino"])["viajes"].sum()`. -/
def u_group_by_origin_destination_directed (df : List PRow) :
    Except String (List PRow) :=
  u_groupby_sum ["municipio_origen", "municipio_destino"] df

/-- Python `tuple(sorted([a, b]))` on two cells; comparing a string with an
integer raises `TypeError`. -/
def pvalSortPair (a b : PVal) : Except String (PVal × PVal) :=
  match a, b with
  | .s x, .s y => .ok (if clLt y.data x.data then (.s y, .s x) else (.s x, .s y))
  | .i x, .i y => .ok (if y < x then (.i y, .i x) else (.i x, .i y))
  | _, _ => .error "TypeError"

/-- Source `group_by_origin_destination_undirected` on a dynamically-typed frame:
the directed grouping, then per row the canonical
(`municipio_1`, `municipio_2`) pair, then the re-grouping by that pair. -/
def u_group_by_origin_destination_undirected (df : List PRow) :
    Except String (List PRow) := do
  let directed_edges ← u_group_by_origin_destination_directed df
  let undirected_edges ← directed_edges.mapM fun node => do
    let a ← pgetCol node "municipio_origen"
    let b ← pgetCol node "municipio_destino"
    let mm ← pvalSortPair a b
    let v ← pgetCol node "viajes"
    pure [("municipio_1", mm.1), ("municipio_2", mm.2), ("viajes", v)]
  u_groupby_sum ["municipio_1", "municipio_2"] undirected_edges

/-- The two-row trip table of the undirected-pair scenario:
`[{origen: "001", destino: "002", viajes: 5}, {origen: "002", destino: "001", viajes: 3}]`. -/
def scenarioPairTable : List TripRow :=
  [⟨"001", "A", "002", "B", 5⟩, ⟨"002", "B", "001", "A", 3⟩]

/-- A three-row trip table for exercising the flow-conservation statement. -/
def scenarioFlowTable : List TripRow :=
  [⟨"001", "A", "002", "B", 5⟩, ⟨"002", "B", "001", "A", 3⟩,
   ⟨"001", "A", "003", "C", 2⟩]

/-- A trip table where municipality ("001", "A") occurs in both roles,
("002", "B") only as destination, and ("003", "C") only as origin. -/
def scenarioMuniTable : List TripRow :=
  [⟨"001", "A", "002", "B", 5⟩, ⟨"003", "C", "001", "A", 3⟩,
   ⟨"001", "A", "002", "B", 4⟩]

/-- The undirected-pair scenario table as a dynamically-typed frame. -/
def scenarioPairFrame : List PRow :=
  [[("municipio_origen", .s "001"), ("municipio_origen_name", .s "A"),
    ("municipio_destino", .s "002"), ("municipio_destino_name", .s "B"),
    ("viajes", .i 5)],
   [("municipio_origen", .s "002"), ("municipio_origen_name", .s "B"),
    ("municipio_destino", .s "001"), ("municipio_destino_name", .s "A"),
    ("viajes", .i 3)]]

/-- The catalog-builder scenario: root `/data` with the single period
directory `2023-01` holding `a_barrios.csv`, `b_municipios.csv`,
`c_mun_barrios.csv`. -/
def scenarioCatalogFS : RootFS :=
  ⟨true, "/data",
   [⟨"2023-01", [("a_barrios.csv", 100), ("b_municipios.csv", 200),
                 ("c_mun_barrios.csv", 300)]⟩]⟩

/-- An existing catalog root whose only period directory holds two files
instead of three. -/
def malformedCatalogFS : RootFS :=
  ⟨true, "/data", [⟨"2023-01", [("a.csv", 1), ("b.csv", 2)]⟩]⟩

/-- An existing catalog root whose periods appear in walk order 2023-02,
2023-01: the builder must order the catalog by the period key. -/
def unsortedCatalogFS : RootFS :=
  ⟨true, "/data",
   [⟨"2023-02", [("a.csv", 1), ("b.csv", 2), ("c.csv", 3)]⟩,
    ⟨"2023-01", [("d.csv", 4), ("e.csv", 5), ("f.csv", 6)]⟩]⟩

/-- Two cataloged one-column CSV files producing the same group-key tuple
`["2023-01-01"]`. -/
def scenarioAggFiles : List (String × List CsvRow) :=
  [("/data/2023-01/m.csv",
    [[("day", "2023-01-01"), ("viajes", "5")],
     [("day", "2023-01-01"), ("viajes", "2")]]),
   ("/data/2023-02/m.csv",
    [[("day", "2023-01-01"), ("viajes", "3")]])]

/-- The catalog the builder produces for `scenarioCatalogFS`. -/
def scenarioCatalogResult : List DatasetEntry :=
  [⟨"2023", "01", "barrios", "/data/2023-01/a_barrios.csv", 100⟩,
   ⟨"2023", "01", "mun_barrios", "/data/2023-01/b_municipios.csv", 200⟩,
   ⟨"2023", "01", "municipios", "/data/2023-01/c_mun_barrios.csv", 300⟩]

/-- The catalog the builder produces for `unsortedCatalogFS`, in walk order
(period 2023-02 before 2023-01). -/
def unsortedCatalogEntries : List DatasetEntry :=
  [⟨"2023", "02", "barrios", "/data/2023-02/a.csv", 1⟩,
   ⟨"2023", "02", "mun_barrios", "/data/2023-02/b.csv", 2⟩,
   ⟨"2023", "02", "municipios", "/data/2023-02/c.csv", 3⟩,
   ⟨"2023", "01", "barrios", "/data/2023-01/d.csv", 4⟩,
   ⟨"2023", "01", "mun_barrios", "/data/2023-01/e.csv", 5⟩,
   ⟨"2023", "01", "municipios", "/data/2023-01/f.csv", 6⟩]

/-- A catalog root path that does not exist. -/
def missingRootFS : RootFS := ⟨false, "/data", []⟩

end MobiCat

namespace MobiCat

section CharListOrder

/-- Irreflexivity: `clLt` never relates a list to itself. -/
theorem clLt_irrefl (l : List Char) : clLt l l = false := by
  induction l with
  | nil => rfl
  | cons c l ih => simp [clLt, ih, lt_self_iff_false]

/-- Characterization of `clLt` on a cons pair, propositionally. -/
theorem clLt_cons_iff {x y : Char} {xs ys : List Char} :
    clLt (x :: xs) (y :: ys) = true ↔ x < y ∨ (x = y ∧ clLt xs ys = true) := by
  simp [clLt]

/-- Asymmetry of `clLt`. -/
theorem clLt_asymm : ∀ {a b : List Char}, clLt a b = true → clLt b a = false
  | [], [], h => by simp [clLt] at h
  | [], _ :: _, _ => rfl
  | _ :: _, [], h => by simp [clLt] at h
  | x :: xs, y :: ys, h => by
      rcases clLt_cons_iff.mp h with h1 | ⟨h1, h2⟩
      · have hne : ¬ y < x := lt_asymm h1
        have hne2 : ¬ y = x := fun he => absurd (he ▸ h1) (lt_irrefl y)
        simp [clLt, hne, hne2]
      · subst h1
        simp [clLt, lt_self_iff_false, clLt_asymm h2]

/-- Transitivity of `clLt`. -/
theorem clLt_trans : ∀ {a b c : List Char},
    clLt a b = true → clLt b c = true → clLt a c = true
  | _, [], [], _, h2 => by simp [clLt] at h2
  | _, _ :: _, [], _, h2 => by simp [clLt] at h2
  | [], [], _ :: _, h1, _ => by simp [clLt] at h1
  | _ :: _, [], _ :: _, h1, _ => by simp [clLt] at h1
  | [], _ :: _, _ :: _, _, _ => rfl
  | x :: xs, y :: ys, z :: zs, h1, h2 => by
      rcases clLt_cons_iff.mp h1 with ha | ⟨ha, ha2⟩
      · rcases clLt_cons_iff.mp h2 with hb | ⟨hb, hb2⟩
        · exact clLt_cons_iff.mpr (Or.inl (lt_trans ha hb))
        · exact clLt_cons_iff.mpr (Or.inl (hb ▸ ha))
      · subst ha
        rcases clLt_cons_iff.mp h2 with hb | ⟨hb, hb2⟩
        · exact clLt_cons_iff.mpr (Or.inl hb)
        · exact clLt_cons_iff.mpr (Or.inr ⟨hb, clLt_trans ha2 hb2⟩)

/-- Two lists neither of which is `clLt`-below the other are equal. -/
theorem clLt_connex : ∀ {a b : List Char},
    a ≠ b → clLt a b = true ∨ clLt b a = true
  | [], [], h => absurd rfl h
  | [], _ :: _, _ => Or.inl rfl
  | _ :: _, [], _ => Or.inr rfl
  | x :: xs, y :: ys, h => by
      rcases lt_trichotomy x y with hx | hx | hx
      · exact Or.inl (clLt_cons_iff.mpr (Or.inl hx))
      · subst hx
        have hne : xs ≠ ys := fun he => h (by rw [he])
        rcases clLt_connex hne with h1 | h1
        · exact Or.inl (clLt_cons_iff.mpr (Or.inr ⟨rfl, h1⟩))
        · exact Or.inr (clLt_cons_iff.mpr (Or.inr ⟨rfl, h1⟩))
      · exact Or.inr (clLt_cons_iff.mpr (Or.inl hx))

/-- Mutual non-strictness means equality. -/
theorem eq_of_clLt_false {a b : List Char} (h1 : clLt a b = false)
    (h2 : clLt b a = false) : a = b := by
  by_contra hne
  rcases clLt_connex hne with h | h
  · rw [h1] at h; cases h
  · rw [h2] at h; cases h

/-- String equality from character-list equality. -/
theorem str_eq_of_data_eq {a b : String} (h : a.data = b.data) : a = b :=
  String.ext h

/-- Characterization of `pairLe`, propositionally. -/
theorem pairLe_iff {a b : String × String} :
    pairLe a b = true ↔
      clLt a.1.data b.1.data = true ∨
        (a.1 = b.1 ∧ clLt b.2.data a.2.data = false) := by
  simp [pairLe, Bool.not_eq_true']

instance : IsTotal (String × String) (boolRel pairLe) := by
  constructor
  intro a b
  by_cases h1 : clLt a.1.data b.1.data = true
  · exact Or.inl (pairLe_iff.mpr (Or.inl h1))
  · by_cases h2 : clLt b.1.data a.1.data = true
    · exact Or.inr (pairLe_iff.mpr (Or.inl h2))
    · have hfst : a.1 = b.1 :=
        str_eq_of_data_eq (eq_of_clLt_false
          (Bool.not_eq_true _ ▸ h1) (Bool.not_eq_true _ ▸ h2))
      by_cases h3 : clLt b.2.data a.2.data = true
      · exact Or.inr (pairLe_iff.mpr (Or.inr ⟨hfst.symm, clLt_asymm h3⟩))
      · exact Or.inl (pairLe_iff.mpr (Or.inr ⟨hfst, Bool.not_eq_true _ ▸ h3⟩))

instance : IsTrans (String × String) (boolRel pairLe) := by
  constructor
  intro a b c hab hbc
  rcases pairLe_iff.mp hab with h1 | ⟨h1, h1'⟩
  · rcases pairLe_iff.mp hbc with h2 | ⟨h2, h2'⟩
    · exact pairLe_iff.mpr (Or.inl (clLt_trans h1 h2))
    · exact pairLe_iff.mpr (Or.inl (h2 ▸ h1))
  · rcases pairLe_iff.mp hbc with h2 | ⟨h2, h2'⟩
    · exact pairLe_iff.mpr (Or.inl (h1 ▸ h2))
    · refine pairLe_iff.mpr (Or.inr ⟨h1.trans h2, ?_⟩)
      cases hq : clLt c.2.data a.2.data with
      | false => rfl
      | true =>
        exfalso
        by_cases he : b.2.data = c.2.data
        · rw [he] at h1'
          rw [h1'] at hq
          exact Bool.noConfusion hq
        · have hbc2 : clLt b.2.data c.2.data = true := by
            rcases clLt_connex he with h | h
            · exact h
            · rw [h2'] at h
              exact Bool.noConfusion h
          have hba2 : clLt b.2.data a.2.data = true := clLt_trans hbc2 hq
          rw [h1'] at hba2
          exact Bool.noConfusion hba2

instance : IsAntisymm (String × String) (boolRel pairLe) := by
  constructor
  intro a b hab hba
  rcases pairLe_iff.mp hab with h1 | ⟨h1, h1'⟩
  · rcases pairLe_iff.mp hba with h2 | ⟨h2, h2'⟩
    · have := clLt_asymm h1
      rw [this] at h2
      exact Bool.noConfusion h2
    · rw [h2] at h1
      rw [clLt_irrefl a.1.data] at h1
      exact Bool.noConfusion h1
  · rcases pairLe_iff.mp hba with h2 | ⟨h2, h2'⟩
    · rw [h1] at h2
      rw [clLt_irrefl b.1.data] at h2
      exact Bool.noConfusion h2
    · have hsnd : a.2 = b.2 :=
        str_eq_of_data_eq (eq_of_clLt_false h2' h1')
      exact Prod.ext h1 hsnd

end CharListOrder

section GroupbyLemmas

variable {κ : Type} [DecidableEq κ]

theorem filterKey_cons (p : κ × Int) (rows : List (κ × Int)) (k : κ) :
    filterKey (p :: rows) k =
      if p.1 = k then p :: filterKey rows k else filterKey rows k := by
  simp [filterKey, List.filter_cons]

theorem keySum_cons (p : κ × Int) (rows : List (κ × Int)) (k : κ) :
    keySum (p :: rows) k =
      if p.1 = k then p.2 + keySum rows k else keySum rows k := by
  rw [keySum, filterKey_cons]
  split
  · simp [keySum]
  · rfl

theorem filterKey_eq_nil {rows : List (κ × Int)} {k : κ}
    (h : k ∉ rows.map Prod.fst) : filterKey rows k = [] := by
  apply List.filter_eq_nil_iff.mpr
  intro p hp
  simp only [decide_eq_true_eq]
  intro hk
  exact h (List.mem_map.mpr ⟨p, hp, hk⟩)

theorem keySum_of_not_mem {rows : List (κ × Int)} {k : κ}
    (h : k ∉ rows.map Prod.fst) : keySum rows k = 0 := by
  simp [keySum, filterKey_eq_nil h]

theorem sum_map_ite (ks : List κ) (f : κ → Int) (a : κ) (c : Int)
    (hnd : ks.Nodup) (ha : a ∈ ks) :
    (ks.map fun k => if a = k then c + f k else f k).sum
      = c + (ks.map f).sum := by
  induction ks with
  | nil => cases ha
  | cons k ks ih =>
    rcases List.nodup_cons.mp hnd with ⟨hk, hnd'⟩
    rcases List.mem_cons.mp ha with h | h
    · subst h
      rw [List.map_cons, if_pos rfl, List.sum_cons,
        List.map_congr_left (fun k' hk' =>
          if_neg (fun he : a = k' => hk (he ▸ hk')))]
      rw [List.map_cons, List.sum_cons]
      ring
    · have hak : ¬ a = k := fun he => hk (he ▸ h)
      rw [List.map_cons, if_neg hak, List.sum_cons, ih hnd' h,
        List.map_cons, List.sum_cons]
      ring

theorem sum_keySum (rows : List (κ × Int)) (ks : List κ) (hnd : ks.Nodup)
    (hcov : ∀ p ∈ rows, p.1 ∈ ks) :
    (ks.map (keySum rows)).sum = (rows.map Prod.snd).sum := by
  induction rows with
  | nil =>
    rw [List.map_congr_left (fun k _ =>
      keySum_of_not_mem (by simp : k ∉ ([] : List (κ × Int)).map Prod.fst))]
    simp
  | cons p rows ih =>
    rw [List.map_congr_left (fun k _ => keySum_cons p rows k)]
    rw [sum_map_ite ks (keySum rows) p.1 p.2 hnd
      (hcov p (List.mem_cons_self p rows))]
    rw [ih (fun q hq => hcov q (List.mem_cons_of_mem p hq))]
    simp

theorem gb_keys (le : κ → κ → Bool) (rows : List (κ × Int)) :
    (groupbySum le rows).map Prod.fst
      = ((rows.map Prod.fst).dedup).insertionSort (boolRel le) := by
  rw [groupbySum, List.map_map]
  exact List.map_id _

theorem gb_keys_perm (le : κ → κ → Bool) (rows : List (κ × Int)) :
    ((groupbySum le rows).map Prod.fst).Perm ((rows.map Prod.fst).dedup) := by
  rw [gb_keys]
  exact List.perm_insertionSort _ _

theorem gb_keys_nodup (le : κ → κ → Bool) (rows : List (κ × Int)) :
    ((groupbySum le rows).map Prod.fst).Nodup :=
  (gb_keys_perm le rows).nodup_iff.mpr (List.nodup_dedup _)

theorem gb_keys_mem {le : κ → κ → Bool} {rows : List (κ × Int)} {k : κ} :
    k ∈ (groupbySum le rows).map Prod.fst ↔ k ∈ rows.map Prod.fst :=
  Iff.trans (gb_keys_perm le rows).mem_iff List.mem_dedup

theorem gb_total (le : κ → κ → Bool) (rows : List (κ × Int)) :
    ((groupbySum le rows).map Prod.snd).sum = (rows.map Prod.snd).sum := by
  rw [groupbySum, List.map_map]
  have hc : (Prod.snd ∘ fun k => (k, keySum rows k)) = keySum rows := rfl
  rw [hc]
  apply sum_keySum
  · exact (List.perm_insertionSort _ _).nodup_iff.mpr (List.nodup_dedup _)
  · intro p hp
    exact (List.perm_insertionSort _ _).mem_iff.mpr
      (List.mem_dedup.mpr (List.mem_map.mpr ⟨p, hp, rfl⟩))

theorem filter_eq_singleton_of_nodup {l : List κ} (hnd : l.Nodup) {a : κ}
    (ha : a ∈ l) : l.filter (fun x => decide (x = a)) = [a] := by
  induction l with
  | nil => cases ha
  | cons k l ih =>
    rcases List.nodup_cons.mp hnd with ⟨hk, hnd'⟩
    rcases List.mem_cons.mp ha with h | h
    · subst h
      have hnil : l.filter (fun x => decide (x = a)) = [] :=
        List.filter_eq_nil_iff.mpr (fun x hx hxa =>
          hk ((by simpa using hxa : x = a) ▸ hx))
      simp [List.filter_cons, hnil]
    · have hka : ¬ (k = a) := fun he => hk (he ▸ h)
      rw [List.filter_cons, if_neg (by simpa using hka)]
      exact ih hnd' h

theorem gb_filter_key (le : κ → κ → Bool) (rows : List (κ × Int)) {k : κ}
    (hk : k ∈ rows.map Prod.fst) :
    filterKey (groupbySum le rows) k = [(k, keySum rows k)] := by
  rw [groupbySum, filterKey, List.filter_map]
  have hcomp : ((fun p : κ × Int => decide (p.1 = k)) ∘
      fun k' => (k', keySum rows k')) = fun k' => decide (k' = k) := rfl
  rw [hcomp]
  rw [filter_eq_singleton_of_nodup
    ((List.perm_insertionSort _ _).nodup_iff.mpr (List.nodup_dedup _))
    ((List.perm_insertionSort _ _).mem_iff.mpr (List.mem_dedup.mpr hk))]
  rfl

theorem keySum_groupbySum (le : κ → κ → Bool) (rows : List (κ × Int))
    (k : κ) : keySum (groupbySum le rows) k = keySum rows k := by
  by_cases hk : k ∈ rows.map Prod.fst
  · rw [keySum, gb_filter_key le rows hk]
    simp [keySum]
  · have h1 : k ∉ (groupbySum le rows).map Prod.fst :=
      fun h => hk (gb_keys_mem.mp h)
    rw [keySum_of_not_mem h1, keySum_of_not_mem hk]

theorem keySum_split_two (l : List (κ × Int)) {a b : κ} (hab : a ≠ b) :
    ((l.filter fun p => decide (p.1 = a) || decide (p.1 = b)).map
      Prod.snd).sum = keySum l a + keySum l b := by
  induction l with
  | nil => simp [keySum, filterKey]
  | cons p l ih =>
    rw [List.filter_cons, keySum_cons, keySum_cons]
    by_cases h1 : p.1 = a
    · have h2 : ¬ p.1 = b := fun hb => hab (h1 ▸ hb)
      rw [if_pos (by simp [h1]), if_pos h1, if_neg h2,
        List.map_cons, List.sum_cons, ih]
      ring
    · by_cases h2 : p.1 = b
      · rw [if_pos (by simp [h2]), if_neg h1, if_pos h2,
          List.map_cons, List.sum_cons, ih]
        ring
      · rw [if_neg (by simp [h1, h2]), if_neg h1, if_neg h2]
        exact ih

theorem keySum_map {α : Type} (g : α → κ) (h : α → Int) (l : List α)
    (k : κ) :
    keySum (l.map fun x => (g x, h x)) k
      = ((l.filter fun x => decide (g x = k)).map h).sum := by
  rw [keySum, filterKey, List.filter_map, List.map_map]
  rfl

theorem filterKey_of_nodup_mem {rows : List (κ × Int)}
    (hnd : (rows.map Prod.fst).Nodup) {p : κ × Int} (hp : p ∈ rows) :
    filterKey rows p.1 = [p] := by
  induction rows with
  | nil => cases hp
  | cons q rows ih =>
    rw [List.map_cons] at hnd
    rcases List.nodup_cons.mp hnd with ⟨hq, hnd'⟩
    rcases List.mem_cons.mp hp with h | h
    · subst h
      rw [filterKey_cons, if_pos rfl, filterKey_eq_nil hq]
    · have hne : ¬ q.1 = p.1 :=
        fun he => hq (he ▸ List.mem_map.mpr ⟨p, h, rfl⟩)
      rw [filterKey_cons, if_neg hne]
      exact ih hnd' h

theorem keySum_of_nodup_mem {rows : List (κ × Int)}
    (hnd : (rows.map Prod.fst).Nodup) {p : κ × Int} (hp : p ∈ rows) :
    keySum rows p.1 = p.2 := by
  rw [keySum, filterKey_of_nodup_mem hnd hp]
  simp

theorem groupbySum_self (le : κ → κ → Bool) [IsTotal κ (boolRel le)]
    [IsTrans κ (boolRel le)] [IsAntisymm κ (boolRel le)]
    (rows : List (κ × Int)) (hnd : (rows.map Prod.fst).Nodup)
    (hs : List.Sorted (boolRel le) (rows.map Prod.fst)) :
    groupbySum le rows = rows := by
  rw [groupbySum, List.dedup_eq_self.mpr hnd,
    List.eq_of_perm_of_sorted (List.perm_insertionSort _ _)
      (List.sorted_insertionSort _ _) hs,
    List.map_map]
  have hpt : ∀ p ∈ rows,
      ((fun k => (k, keySum rows k)) ∘ Prod.fst) p = id p := by
    intro p hp
    show (p.1, keySum rows p.1) = p
    rw [keySum_of_nodup_mem hnd hp]
  rw [List.map_congr_left hpt, List.map_id]

theorem gb_keys_sorted (le : κ → κ → Bool) [IsTotal κ (boolRel le)]
    [IsTrans κ (boolRel le)] (rows : List (κ × Int)) :
    List.Sorted (boolRel le) ((groupbySum le rows).map Prod.fst) := by
  rw [gb_keys]
  exact List.sorted_insertionSort _ _

theorem gb_mem_snd {le : κ → κ → Bool} {rows : List (κ × Int)} {p : κ × Int}
    (hp : p ∈ groupbySum le rows) : p.2 = keySum rows p.1 := by
  rw [groupbySum] at hp
  obtain ⟨k, _, he⟩ := List.mem_map.mp hp
  rw [← he]

end GroupbyLemmas

section HelperLemmas

theorem except_bind_eq_ok {α β : Type} {x : Except String α}
    {f : α → Except String β} {b : β} (h : (x >>= f) = .ok b) :
    ∃ a, x = .ok a ∧ f a = .ok b := by
  cases x with
  | error e => exact Except.noConfusion h
  | ok a => exact ⟨a, rfl, h⟩

theorem data_ne_of_ne {a b : String} (h : a ≠ b) : a.data ≠ b.data :=
  fun hd => h (String.ext hd)

theorem clLt_false_of_not {x y : List Char} (h : ¬ clLt x y = true) :
    clLt x y = false := by
  revert h
  cases clLt x y <;> simp

theorem sortedPair_eq (a b : String) :
    sortedPair a b = (pymin a b, pymax a b) := by
  by_cases h : clLt b.data a.data = true
  · simp [sortedPair, pymin, pymax, h]
  · simp [sortedPair, pymin, pymax, clLt_false_of_not h]

theorem swap_pymin_pymax {A B : String} (h : A ≠ B) :
    pymin B A = pymin A B ∧ pymax B A = pymax A B := by
  by_cases h1 : clLt B.data A.data = true
  · have h2 : clLt A.data B.data = false := clLt_asymm h1
    simp [pymin, pymax, h1, h2]
  · have h1' : clLt B.data A.data = false := clLt_false_of_not h1
    have h2 : clLt A.data B.data = true := by
      rcases clLt_connex (data_ne_of_ne h) with hh | hh
      · exact hh
      · rw [h1'] at hh
        exact Bool.noConfusion hh
    simp [pymin, pymax, h1', h2]

theorem sortedPair_fix (a b : String) :
    sortedPair (sortedPair a b).1 (sortedPair a b).2 = sortedPair a b := by
  by_cases h : clLt b.data a.data = true
  · have h2 : clLt a.data b.data = false := clLt_asymm h
    simp [sortedPair, h, h2]
  · simp [sortedPair, clLt_false_of_not h]

theorem sortedPair_eq_iff {x y A B : String} (h : A ≠ B) :
    sortedPair x y = (pymin A B, pymax A B) ↔
      ((x, y) = (A, B) ∨ (x, y) = (B, A)) := by
  constructor
  · intro he
    by_cases h1 : clLt B.data A.data = true
    · have hmin : pymin A B = B := by simp [pymin, h1]
      have hmax : pymax A B = A := by simp [pymax, h1]
      rw [hmin, hmax] at he
      by_cases h2 : clLt y.data x.data = true
      · have : (y, x) = (B, A) := by rw [← he]; simp [sortedPair, h2]
        rw [Prod.mk.injEq] at this
        exact Or.inl (by rw [Prod.mk.injEq]; exact ⟨this.2, this.1⟩)
      · have : (x, y) = (B, A) := by
          rw [← he]; simp [sortedPair, clLt_false_of_not h2]
        exact Or.inr this
    · have h1' : clLt B.data A.data = false := clLt_false_of_not h1
      have hmin : pymin A B = A := by simp [pymin, h1']
      have hmax : pymax A B = B := by simp [pymax, h1']
      rw [hmin, hmax] at he
      by_cases h2 : clLt y.data x.data = true
      · have : (y, x) = (A, B) := by rw [← he]; simp [sortedPair, h2]
        rw [Prod.mk.injEq] at this
        exact Or.inr (by rw [Prod.mk.injEq]; exact ⟨this.2, this.1⟩)
      · have : (x, y) = (A, B) := by
          rw [← he]; simp [sortedPair, clLt_false_of_not h2]
        exact Or.inl this
  · rintro (he | he) <;> rw [Prod.mk.injEq] at he
    · rw [he.1, he.2]
      exact sortedPair_eq A B
    · rw [he.1, he.2, sortedPair_eq B A, (swap_pymin_pymax h).1,
        (swap_pymin_pymax h).2]

theorem undirected_eq (df : List TripRow) :
    group_by_origin_destination_undirected df
      = (groupbySum pairLe ((groupbySum pairLe (df.map fun r =>
          ((r.municipio_origen, r.municipio_destino), r.viajes))).map
          fun p => (sortedPair p.1.1 p.1.2, p.2))).map
          fun p => (⟨p.1.1, p.1.2, p.2⟩ : UPairRow) := by
  show (groupbySum pairLe (((groupbySum pairLe (df.map fun r =>
      ((r.municipio_origen, r.municipio_destino), r.viajes))).map
      (fun p => (⟨p.1.1, p.1.2, p.2⟩ : PairRow))).map
      (fun node => (sortedPair node.municipio_origen node.municipio_destino,
        node.viajes)))).map
      (fun p => (⟨p.1.1, p.1.2, p.2⟩ : UPairRow)) = _
  rw [List.map_map]
  rfl

theorem filter_upair_key (l : List ((String × String) × Int)) (m M : String) :
    (l.map fun p => (⟨p.1.1, p.1.2, p.2⟩ : UPairRow)).filter
        (fun u => u.municipio_1 == m && u.municipio_2 == M)
      = (filterKey l (m, M)).map fun p => (⟨p.1.1, p.1.2, p.2⟩ : UPairRow) := by
  rw [List.filter_map, filterKey]
  congr 1
  apply List.filter_congr
  intro p _
  show (p.1.1 == m && p.1.2 == M) = decide (p.1 = (m, M))
  rw [Bool.eq_iff_iff]
  simp [Prod.ext_iff]

theorem keySum_directed (df : List TripRow) (X Y : String) :
    keySum (df.map fun r =>
        ((r.municipio_origen, r.municipio_destino), r.viajes)) (X, Y)
      = directedSum df X Y := by
  have hf : (df.filter fun x =>
        decide ((x.municipio_origen, x.municipio_destino) = (X, Y)))
      = df.filter fun r =>
        r.municipio_origen == X && r.municipio_destino == Y := by
    apply List.filter_congr
    intro r _
    rw [Bool.eq_iff_iff]
    simp [Prod.ext_iff]
  rw [keySum_map (fun r : TripRow => (r.municipio_origen, r.municipio_destino))
    (fun r : TripRow => r.viajes), hf, directedSum]

theorem muni_type_origen_eq (df : List TripRow) :
    group_by_municipality_type df .origen
      = (groupbySum pairLe (df.map fun r =>
          ((r.municipio_origen, r.municipio_origen_name), r.viajes))).map
          fun p => (⟨p.1.1, p.1.2, p.2⟩ : MuniRow) := rfl

theorem muni_type_destino_eq (df : List TripRow) :
    group_by_municipality_type df .destino
      = (groupbySum pairLe (df.map fun r =>
          ((r.municipio_destino, r.municipio_destino_name), r.viajes))).map
          fun p => (⟨p.1.1, p.1.2, p.2⟩ : MuniRow) := rfl

theorem municipality_eq (df : List TripRow) :
    group_by_municipality df
      = (groupbySum pairLe ((group_by_municipality_type df .origen
          ++ group_by_municipality_type df .destino).map fun r =>
          ((r.municipio, r.municipio_name), r.viajes))).map
          fun p => (⟨p.1.1, p.1.2, p.2⟩ : MuniRow) := rfl

theorem filter_muni_key (l : List ((String × String) × Int)) (m n : String) :
    (l.map fun p => (⟨p.1.1, p.1.2, p.2⟩ : MuniRow)).filter
        (fun x => x.municipio == m && x.municipio_name == n)
      = (filterKey l (m, n)).map fun p => (⟨p.1.1, p.1.2, p.2⟩ : MuniRow) := by
  rw [List.filter_map, filterKey]
  congr 1
  apply List.filter_congr
  intro p _
  show (p.1.1 == m && p.1.2 == n) = decide (p.1 = (m, n))
  rw [Bool.eq_iff_iff]
  simp [Prod.ext_iff]

theorem muni_filter_sum (l : List ((String × String) × Int)) (m n : String) :
    (((l.map fun p => (⟨p.1.1, p.1.2, p.2⟩ : MuniRow)).filter fun x =>
        decide ((x.municipio, x.municipio_name) = (m, n))).map
        fun r => r.viajes).sum = keySum l (m, n) := by
  rw [List.filter_map, List.map_map]
  rfl

theorem keySum_origin (df : List TripRow) (m n : String) :
    keySum (df.map fun r =>
        ((r.municipio_origen, r.municipio_origen_name), r.viajes)) (m, n)
      = originSum df m n := by
  have hf : (df.filter fun x =>
        decide ((x.municipio_origen, x.municipio_origen_name) = (m, n)))
      = df.filter fun r =>
        r.municipio_origen == m && r.municipio_origen_name == n := by
    apply List.filter_congr
    intro r _
    rw [Bool.eq_iff_iff]
    simp [Prod.ext_iff]
  rw [keySum_map
    (fun r : TripRow => (r.municipio_origen, r.municipio_origen_name))
    (fun r : TripRow => r.viajes), hf, originSum]

theorem keySum_destination (df : List TripRow) (m n : String) :
    keySum (df.map fun r =>
        ((r.municipio_destino, r.municipio_destino_name), r.viajes)) (m, n)
      = destinationSum df m n := by
  have hf : (df.filter fun x =>
        decide ((x.municipio_destino, x.municipio_destino_name) = (m, n)))
      = df.filter fun r =>
        r.municipio_destino == m && r.municipio_destino_name == n := by
    apply List.filter_congr
    intro r _
    rw [Bool.eq_iff_iff]
    simp [Prod.ext_iff]
  rw [keySum_map
    (fun r : TripRow => (r.municipio_destino, r.municipio_destino_name))
    (fun r : TripRow => r.viajes), hf, destinationSum]

theorem undirected_of_canonical (l : List ((String × String) × Int))
    (hnd : (l.map Prod.fst).Nodup)
    (hsorted : List.Sorted (boolRel pairLe) (l.map Prod.fst))
    (hcanon : ∀ p ∈ l, sortedPair p.1.1 p.1.2 = p.1) :
    group_by_origin_destination_undirected
        ((l.map fun p => (⟨p.1.1, p.1.2, p.2⟩ : UPairRow)).map
          relabel_undirected)
      = l.map fun p => (⟨p.1.1, p.1.2, p.2⟩ : UPairRow) := by
  rw [undirected_eq]
  have hinner : (((l.map fun p => (⟨p.1.1, p.1.2, p.2⟩ : UPairRow)).map
      relabel_undirected).map fun r =>
      ((r.municipio_origen, r.municipio_destino), r.viajes)) = l := by
    rw [List.map_map, List.map_map]
    show List.map id l = l
    exact List.map_id l
  rw [hinner, groupbySum_self pairLe l hnd hsorted]
  have hmid : (l.map fun p => (sortedPair p.1.1 p.1.2, p.2)) = l := by
    have hpt : ∀ p ∈ l, (fun p : (String × String) × Int =>
        (sortedPair p.1.1 p.1.2, p.2)) p = id p := by
      intro p hp
      show (sortedPair p.1.1 p.1.2, p.2) = p
      rw [hcanon p hp]
    rw [List.map_congr_left hpt, List.map_id]
  rw [hmid, groupbySum_self pairLe l hnd hsorted]

instance : IsTotal DatasetEntry (boolRel entryLe) :=
  ⟨fun a b => total_of (boolRel pairLe) (a.year, a.month) (b.year, b.month)⟩

instance : IsTrans DatasetEntry (boolRel entryLe) :=
  ⟨fun _ _ _ hab hbc => trans_of (boolRel pairLe) hab hbc⟩

theorem processPeriod_ok_iff (root : String) (d : PeriodDir) :
    (∃ es, processPeriod root d = .ok es) ↔ periodWellFormed d = true := by
  constructor
  · rintro ⟨es, hes⟩
    unfold processPeriod at hes
    split at hes
    next ycs mcs hsp =>
      split at hes
      next f1 f2 f3 rest hsort =>
        rw [periodWellFormed, hsp, Bool.and_eq_true]
        have hlen : (d.files.insertionSort (boolRel fileLe)).length
            = d.files.length := List.length_insertionSort _ _
        rw [hsort] at hlen
        refine ⟨rfl, ?_⟩
        rw [decide_eq_true_eq, ← hlen]
        simp
      next hsort => exact Except.noConfusion hes
    next hsp => exact Except.noConfusion hes
  · intro hwf
    rw [periodWellFormed, Bool.and_eq_true] at hwf
    obtain ⟨h2, h3⟩ := hwf
    rw [decide_eq_true_eq] at h3
    unfold processPeriod
    split
    next ycs mcs hsp =>
      split
      next f1 f2 f3 rest hsort => exact ⟨_, rfl⟩
      next hsort =>
        exfalso
        have hlen : (d.files.insertionSort (boolRel fileLe)).length
            = d.files.length := List.length_insertionSort _ _
        rcases hq : d.files.insertionSort (boolRel fileLe)
          with _ | ⟨a, _ | ⟨b, _ | ⟨c, rest⟩⟩⟩
        · rw [hq] at hlen
          simp at hlen
          omega
        · rw [hq] at hlen
          simp at hlen
          omega
        · rw [hq] at hlen
          simp at hlen
          omega
        · exact hsort a b c rest hq
    next hsp =>
      exfalso
      rcases hq : splitOnChar '-' d.name.data with _ | ⟨y, _ | ⟨m, rest⟩⟩
      · rw [hq] at h2
        simp at h2
      · rw [hq] at h2
        simp at h2
      · rcases rest with _ | ⟨z, rest2⟩
        · exact hsp y m hq
        · rw [hq] at h2
          simp at h2

theorem walkPeriods_ok_iff (root : String) (ds : List PeriodDir) :
    (∃ l, walkPeriods root ds = .ok l) ↔
      ∀ d ∈ ds, periodWellFormed d = true := by
  induction ds with
  | nil => simp [walkPeriods]
  | cons d ds ih =>
    constructor
    · rintro ⟨l, hl⟩
      rw [walkPeriods] at hl
      obtain ⟨es, hes, hl2⟩ := except_bind_eq_ok hl
      obtain ⟨rest, hrest, _⟩ := except_bind_eq_ok hl2
      intro d' hd'
      rcases List.mem_cons.mp hd' with hcase | hcase
      · rw [hcase]
        exact (processPeriod_ok_iff root d).mp ⟨es, hes⟩
      · exact (ih.mp ⟨rest, hrest⟩) d' hcase
    · intro h
      obtain ⟨es, hes⟩ :=
        (processPeriod_ok_iff root d).mpr (h d (List.mem_cons_self d ds))
      obtain ⟨l, hl⟩ :=
        ih.mpr (fun d' hd' => h d' (List.mem_cons_of_mem d hd'))
      refine ⟨es ++ l, ?_⟩
      rw [walkPeriods, hes, hl]
      rfl

theorem file_groupby_ok_nodup {by_ : List String} {t : List CsvRow}
    {g : List (List String × Int)} (hg : file_groupby by_ t = .ok g) :
    (g.map Prod.fst).Nodup := by
  unfold file_groupby at hg
  obtain ⟨vals, _, hg2⟩ := except_bind_eq_ok hg
  obtain ⟨keys, _, hg3⟩ := except_bind_eq_ok hg2
  rw [← Except.ok.inj hg3]
  exact gb_keys_nodup _ _

end HelperLemmas

section ClaimTheorems

/-- Claim C2: for every trip-edge table with non-negative integer trip
counts, the sum of the `viajes` column over all rows of
`group_by_origin_destination_directed`'s result equals the sum of the
`viajes` column over the input table (conservation of total flow). -/
theorem directed_flow_conservation (mobility_df : List TripRow)
    (_h : ∀ r ∈ mobility_df, 0 ≤ r.viajes) :
    ((group_by_origin_destination_directed mobility_df).map (·.viajes)).sum
      = (mobility_df.map (·.viajes)).sum := by
  rw [group_by_origin_destination_directed, List.map_map]
  have h1 : ((fun x : PairRow => x.viajes) ∘
      fun p : (String × String) × Int =>
        (⟨p.1.1, p.1.2, p.2⟩ : PairRow)) = Prod.snd := rfl
  rw [h1, gb_total, List.map_map]
  rfl

/-- Concrete instantiation of `directed_flow_conservation` on a three-row
trip table with non-negative counts. -/
theorem directed_flow_conservation_witness :
    (∀ r ∈ scenarioFlowTable, 0 ≤ r.viajes) ∧
    ((group_by_origin_destination_directed scenarioFlowTable).map
      (·.viajes)).sum = (scenarioFlowTable.map (·.viajes)).sum :=
  ⟨by decide, directed_flow_conservation scenarioFlowTable (by decide)⟩

/-- Claim C6: `filter_by_day` retains exactly the rows whose `day` falls
within `[start, end]`, both bounds inclusive; in particular with bounds
2023-01-01 and 2023-01-31, a row with day exactly 2023-01-31 is retained and
a row with day 2023-02-01 is dropped. -/
theorem filter_by_day_inclusive :
    (∀ (day_df : List DayRow) (s e : Date) (r : DayRow),
        r ∈ filter_by_day day_df s e ↔ r ∈ day_df ∧ s ≤ r.day ∧ r.day ≤ e) ∧
    filter_by_day
        [⟨⟨2023, 1, 1⟩, 1⟩, ⟨⟨2023, 1, 31⟩, 2⟩, ⟨⟨2023, 2, 1⟩, 3⟩]
        ⟨2023, 1, 1⟩ ⟨2023, 1, 31⟩
      = [⟨⟨2023, 1, 1⟩, 1⟩, ⟨⟨2023, 1, 31⟩, 2⟩] := by
  constructor
  · intro day_df s e r
    simp [filter_by_day, List.mem_filter, and_assoc]
  · decide

/-- Claim C7 (code bug): `filter_day_by_year` can never retain a row,
because the source compares the integer `.dt.year` against its `str`-typed
`year` argument (default `"2023"`), and Python `==` between an `int` and a
`str` is always `False`; the sibling `filter_day_by_year_month`, whose
arguments are integers, is the exact-match filter the claim describes. -/
theorem filter_day_by_year_type_bug :
    (∀ (day_df : List DayRow) (year : String),
        filter_day_by_year day_df year = []) ∧
    filter_day_by_year [⟨⟨2023, 5, 15⟩, 7⟩] = [] ∧
    (⟨⟨2023, 5, 15⟩, 7⟩ : DayRow).day.year = 2023 ∧
    (∀ (day_df : List DayRow) (year month : Nat) (r : DayRow),
        r ∈ filter_day_by_year_month day_df year month ↔
          r ∈ day_df ∧ r.day.year = year ∧ r.day.month = month) ∧
    filter_day_by_year_month [⟨⟨2023, 5, 15⟩, 7⟩] 2023 5
      = [⟨⟨2023, 5, 15⟩, 7⟩] := by
  refine ⟨?_, by decide, rfl, ?_, by decide⟩
  · intro day_df year
    simp [filter_day_by_year, py_int_eq_str]
  · intro day_df year month r
    simp [filter_day_by_year_month, List.mem_filter, and_assoc]

/-- Claim C5 as stated is false on the code: in the scenario catalog the
positional convention assigns role `mun_barrios`
(neighborhood-to-municipality) to `b_municipios.csv`, the second sorted
filename, and `municipios` (municipality) to `c_mun_barrios.csv`, the third
— not the other way around as the claim asserts. -/
theorem catalog_roles_counterexample :
    get_datasets_names scenarioCatalogFS = .ok scenarioCatalogResult ∧
    ¬ (∃ e ∈ scenarioCatalogResult,
        e.path = "/data/2023-01/c_mun_barrios.csv" ∧
        e.type = "mun_barrios") ∧
    ¬ (∃ e ∈ scenarioCatalogResult,
        e.path = "/data/2023-01/b_municipios.csv" ∧
        e.type = "municipios") :=
  ⟨rfl, by decide, by decide⟩

/-- Claim C5 (amended): in the scenario catalog the builder assigns, by
position in lexicographic filename order, role `barrios` (neighborhood) to
`a_barrios.csv`, `mun_barrios` (neighborhood-to-municipality) to
`b_municipios.csv` and `municipios` (municipality) to `c_mun_barrios.csv`,
every entry carrying year "2023" and month "01". -/
theorem catalog_roles_positional :
    get_datasets_names scenarioCatalogFS = .ok scenarioCatalogResult ∧
    (∃ e ∈ scenarioCatalogResult,
        e.path = "/data/2023-01/a_barrios.csv" ∧ e.type = "barrios") ∧
    (∃ e ∈ scenarioCatalogResult,
        e.path = "/data/2023-01/b_municipios.csv" ∧
        e.type = "mun_barrios") ∧
    (∃ e ∈ scenarioCatalogResult,
        e.path = "/data/2023-01/c_mun_barrios.csv" ∧
        e.type = "municipios") ∧
    (∀ e ∈ scenarioCatalogResult, e.year = "2023" ∧ e.month = "01") :=
  ⟨rfl, by decide, by decide, by decide, by decide⟩

/-- Claim C9 as stated is false on the code: `get_datasets_names` also
raises when the root exists but a leaf period directory is malformed — here
an existing root whose only period directory holds two files raises
`IndexError`. -/
theorem catalog_error_with_existing_root :
    get_datasets_names malformedCatalogFS = .error "IndexError" ∧
    malformedCatalogFS.present = true :=
  ⟨rfl, rfl⟩

/-- Claim C3 as stated is false on the code: applying
`group_by_origin_destination_undirected` twice raises `KeyError`, because
the first application renames the key columns to
`municipio_1`/`municipio_2` while the function groups on
`municipio_origen`/`municipio_destino`; a single application succeeds on
the same frame. -/
theorem undirected_twice_counterexample :
    (do
      let u1 ← u_group_by_origin_destination_undirected scenarioPairFrame
      u_group_by_origin_destination_undirected u1 :
        Except String (List PRow)) = .error "KeyError" ∧
    u_group_by_origin_destination_undirected scenarioPairFrame
      = .ok [[("municipio_1", .s "001"), ("municipio_2", .s "002"),
              ("viajes", .i 8)]] :=
  ⟨rfl, rfl⟩

/-- Claim C1: for every trip-edge table and distinct municipality codes `A`
and `B` (with at least one row keyed (A,B) or (B,A)),
`group_by_origin_destination_undirected` merges the rows keyed (A,B) and
(B,A) into a single output row keyed by the lexicographically smaller code in
`municipio_1` and the larger in `municipio_2`, with `viajes` equal to the sum
of both directed flows. -/
theorem undirected_pair_merge (mobility_df : List TripRow) (A B : String)
    (hAB : A ≠ B)
    (hex : ∃ r ∈ mobility_df,
      (r.municipio_origen = A ∧ r.municipio_destino = B) ∨
      (r.municipio_origen = B ∧ r.municipio_destino = A)) :
    (group_by_origin_destination_undirected mobility_df).filter
        (fun u => u.municipio_1 == pymin A B && u.municipio_2 == pymax A B)
      = [⟨pymin A B, pymax A B,
          directedSum mobility_df A B + directedSum mobility_df B A⟩] := by
  have hABp : ((A, B) : String × String) ≠ (B, A) := fun he =>
    hAB (congrArg Prod.fst he)
  have hmem : ((pymin A B, pymax A B) : String × String) ∈
      ((groupbySum pairLe (mobility_df.map fun r =>
        ((r.municipio_origen, r.municipio_destino), r.viajes))).map
        fun p => (sortedPair p.1.1 p.1.2, p.2)).map Prod.fst := by
    obtain ⟨r, hr, hcase⟩ := hex
    have hstep : ∀ X Y : String,
        r.municipio_origen = X → r.municipio_destino = Y →
        sortedPair X Y = (pymin A B, pymax A B) →
        ((pymin A B, pymax A B) : String × String) ∈
          ((groupbySum pairLe (mobility_df.map fun r =>
            ((r.municipio_origen, r.municipio_destino), r.viajes))).map
            fun p => (sortedPair p.1.1 p.1.2, p.2)).map Prod.fst := by
      intro X Y h1 h2 hs
      have hkey : ((X, Y) : String × String) ∈
          (mobility_df.map fun r =>
            ((r.municipio_origen, r.municipio_destino), r.viajes)).map
            Prod.fst := by
        rw [List.map_map]
        refine List.mem_map.mpr ⟨r, hr, ?_⟩
        show (r.municipio_origen, r.municipio_destino) = (X, Y)
        rw [h1, h2]
      obtain ⟨p, hp, hpq⟩ := List.mem_map.mp (gb_keys_mem.mpr hkey)
      rw [List.map_map]
      refine List.mem_map.mpr ⟨p, hp, ?_⟩
      show sortedPair p.1.1 p.1.2 = (pymin A B, pymax A B)
      have hx : p.1.1 = X := congrArg Prod.fst hpq
      have hy : p.1.2 = Y := congrArg Prod.snd hpq
      rw [hx, hy]
      exact hs
    rcases hcase with ⟨h1, h2⟩ | ⟨h1, h2⟩
    · exact hstep A B h1 h2 (sortedPair_eq A B)
    · refine hstep B A h1 h2 ?_
      rw [sortedPair_eq B A, (swap_pymin_pymax hAB).1,
        (swap_pymin_pymax hAB).2]
  have hsum : keySum ((groupbySum pairLe (mobility_df.map fun r =>
        ((r.municipio_origen, r.municipio_destino), r.viajes))).map
        fun p => (sortedPair p.1.1 p.1.2, p.2)) (pymin A B, pymax A B)
      = directedSum mobility_df A B + directedSum mobility_df B A := by
    rw [keySum_map
      (fun p : (String × String) × Int => sortedPair p.1.1 p.1.2) Prod.snd]
    have hcanon : ∀ p : (String × String) × Int,
        p ∈ groupbySum pairLe (mobility_df.map fun r =>
          ((r.municipio_origen, r.municipio_destino), r.viajes)) →
        (decide (sortedPair p.1.1 p.1.2 = (pymin A B, pymax A B)))
          = (decide (p.1 = (A, B)) || decide (p.1 = (B, A))) := by
      intro p _
      rw [Bool.eq_iff_iff]
      simp only [decide_eq_true_eq, Bool.or_eq_true]
      exact sortedPair_eq_iff hAB
    rw [List.filter_congr hcanon, keySum_split_two _ hABp,
      keySum_groupbySum, keySum_groupbySum, keySum_directed, keySum_directed]
  rw [undirected_eq, filter_upair_key,
    gb_filter_key pairLe _ hmem, hsum]
  rfl

/-- Concrete instantiation of `undirected_pair_merge` on the two-row
scenario table, together with the full scenario result
`[{municipio_1: "001", municipio_2: "002", viajes: 8}]`. -/
theorem undirected_pair_merge_witness :
    (("001" : String) ≠ "002") ∧
    (group_by_origin_destination_undirected scenarioPairTable).filter
        (fun u => u.municipio_1 == pymin "001" "002" &&
          u.municipio_2 == pymax "001" "002")
      = [⟨pymin "001" "002", pymax "001" "002",
          directedSum scenarioPairTable "001" "002"
            + directedSum scenarioPairTable "002" "001"⟩] ∧
    group_by_origin_destination_undirected scenarioPairTable
      = [⟨"001", "002", 8⟩] :=
  ⟨by decide,
   undirected_pair_merge scenarioPairTable "001" "002" (by decide) (by decide),
   by decide⟩

/-- Claim C4: the `group_by_municipality` result row for a municipality
present as origin and/or destination is unique and carries `viajes` equal to
the sum of its origin-role and destination-role partial sums (a municipality
present in only one role gets its partial sum, the absent role contributing
zero); and the `group_by_municipality_type` rows for that municipality carry
exactly those partial sums. -/
theorem municipality_in_out_sum (df : List TripRow) (m n : String)
    (hex : (∃ r ∈ df, r.municipio_origen = m ∧ r.municipio_origen_name = n) ∨
           (∃ r ∈ df, r.municipio_destino = m ∧ r.municipio_destino_name = n)) :
    (group_by_municipality df).filter
        (fun x => x.municipio == m && x.municipio_name == n)
      = [⟨m, n, originSum df m n + destinationSum df m n⟩] ∧
    (∀ x ∈ group_by_municipality_type df .origen,
        x.municipio = m → x.municipio_name = n →
        x.viajes = originSum df m n) ∧
    (∀ x ∈ group_by_municipality_type df .destino,
        x.municipio = m → x.municipio_name = n →
        x.viajes = destinationSum df m n) := by
  refine ⟨?_, ?_, ?_⟩
  · have hmem : ((m, n) : String × String) ∈
        ((group_by_municipality_type df .origen
          ++ group_by_municipality_type df .destino).map fun r =>
          ((r.municipio, r.municipio_name), r.viajes)).map Prod.fst := by
      rw [List.map_map]
      rcases hex with ⟨r, hr, h1, h2⟩ | ⟨r, hr, h1, h2⟩
      · have hkey : ((m, n) : String × String) ∈
            (df.map fun r =>
              ((r.municipio_origen, r.municipio_origen_name), r.viajes)).map
              Prod.fst := by
          rw [List.map_map]
          refine List.mem_map.mpr ⟨r, hr, ?_⟩
          show (r.municipio_origen, r.municipio_origen_name) = (m, n)
          rw [h1, h2]
        obtain ⟨p, hp, hpq⟩ := List.mem_map.mp (gb_keys_mem.mpr hkey)
        refine List.mem_map.mpr ⟨⟨p.1.1, p.1.2, p.2⟩, ?_, ?_⟩
        · apply List.mem_append_left
          rw [muni_type_origen_eq]
          exact List.mem_map.mpr ⟨p, hp, rfl⟩
        · show (p.1.1, p.1.2) = (m, n)
          exact hpq
      · have hkey : ((m, n) : String × String) ∈
            (df.map fun r =>
              ((r.municipio_destino, r.municipio_destino_name), r.viajes)).map
              Prod.fst := by
          rw [List.map_map]
          refine List.mem_map.mpr ⟨r, hr, ?_⟩
          show (r.municipio_destino, r.municipio_destino_name) = (m, n)
          rw [h1, h2]
        obtain ⟨p, hp, hpq⟩ := List.mem_map.mp (gb_keys_mem.mpr hkey)
        refine List.mem_map.mpr ⟨⟨p.1.1, p.1.2, p.2⟩, ?_, ?_⟩
        · apply List.mem_append_right
          rw [muni_type_destino_eq]
          exact List.mem_map.mpr ⟨p, hp, rfl⟩
        · show (p.1.1, p.1.2) = (m, n)
          exact hpq
    have hsum : keySum ((group_by_municipality_type df .origen
          ++ group_by_municipality_type df .destino).map fun r =>
          ((r.municipio, r.municipio_name), r.viajes)) (m, n)
        = originSum df m n + destinationSum df m n := by
      rw [keySum_map (fun r : MuniRow => (r.municipio, r.municipio_name))
        (fun r : MuniRow => r.viajes)]
      rw [List.filter_append, List.map_append, List.sum_append]
      congr 1
      · rw [muni_type_origen_eq, muni_filter_sum, keySum_groupbySum]
        exact keySum_origin df m n
      · rw [muni_type_destino_eq, muni_filter_sum, keySum_groupbySum]
        exact keySum_destination df m n
    rw [municipality_eq, filter_muni_key, gb_filter_key pairLe _ hmem, hsum]
    rfl
  · intro x hx h1 h2
    rw [muni_type_origen_eq] at hx
    obtain ⟨p, hp, hpx⟩ := List.mem_map.mp hx
    rw [← hpx] at h1 h2
    have hk : p.1 = ((m, n) : String × String) := Prod.ext h1 h2
    rw [← hpx]
    show p.2 = originSum df m n
    rw [gb_mem_snd hp, hk, keySum_origin]
  · intro x hx h1 h2
    rw [muni_type_destino_eq] at hx
    obtain ⟨p, hp, hpx⟩ := List.mem_map.mp hx
    rw [← hpx] at h1 h2
    have hk : p.1 = ((m, n) : String × String) := Prod.ext h1 h2
    rw [← hpx]
    show p.2 = destinationSum df m n
    rw [gb_mem_snd hp, hk, keySum_destination]

/-- Concrete instantiation of `municipality_in_out_sum`: municipality
("001", "A") appears in both roles of the scenario table, ("002", "B") only
as destination and ("003", "C") only as origin, and each appears exactly
once in the grouped result with the corresponding sums. -/
theorem municipality_in_out_sum_witness :
    ((∃ r ∈ scenarioMuniTable,
        r.municipio_origen = "001" ∧ r.municipio_origen_name = "A") ∨
      (∃ r ∈ scenarioMuniTable,
        r.municipio_destino = "001" ∧ r.municipio_destino_name = "A")) ∧
    (group_by_municipality scenarioMuniTable).filter
        (fun x => x.municipio == "001" && x.municipio_name == "A")
      = [⟨"001", "A", originSum scenarioMuniTable "001" "A"
          + destinationSum scenarioMuniTable "001" "A"⟩] ∧
    group_by_municipality scenarioMuniTable
      = [⟨"001", "A", 12⟩, ⟨"002", "B", 9⟩, ⟨"003", "C", 3⟩] ∧
    originSum scenarioMuniTable "001" "A" = 9 ∧
    destinationSum scenarioMuniTable "001" "A" = 3 :=
  ⟨Or.inl (by decide),
   (municipality_in_out_sum scenarioMuniTable "001" "A"
     (Or.inl (by decide))).1,
   by decide, by decide, by decide⟩

/-- Claim C3 (amended): a literal second application of
`group_by_origin_destination_undirected` fails, because the first application
renames the key columns to `municipio_1`/`municipio_2`; after relabelling
those columns back to `municipio_origen`/`municipio_destino`, re-applying the
function returns the first result unchanged, for every trip-edge table. -/
theorem undirected_idempotent_after_relabel (mobility_df : List TripRow) :
    group_by_origin_destination_undirected
        ((group_by_origin_destination_undirected mobility_df).map
          relabel_undirected)
      = group_by_origin_destination_undirected mobility_df := by
  rw [undirected_eq mobility_df]
  apply undirected_of_canonical
  · exact gb_keys_nodup pairLe _
  · exact gb_keys_sorted pairLe _
  · intro p hp
    have h1 := gb_keys_mem.mp (List.mem_map_of_mem Prod.fst hp)
    rw [List.map_map] at h1
    obtain ⟨q, _, hqe⟩ := List.mem_map.mp h1
    have hqe' : sortedPair q.1.1 q.1.2 = p.1 := hqe
    rw [← hqe']
    exact sortedPair_fix q.1.1 q.1.2

/-- Claim C8: `get_datasets_names_df` returns the catalog entries sorted
ascending by the (`year`, `month`) pair with both columns compared as
strings (code-point lexicographically) — the sort happens before the
integer conversion — and the sorted list is a permutation of the catalog. -/
theorem datasets_df_sorted (fs : RootFS) (l₀ : List DatasetEntry)
    (h : get_datasets_names fs = .ok l₀) :
    get_datasets_names_df fs
        = (l₀.insertionSort (boolRel entryLe)).mapM astypeEntry ∧
    List.Sorted (boolRel entryLe) (l₀.insertionSort (boolRel entryLe)) ∧
    (l₀.insertionSort (boolRel entryLe)).Perm l₀ := by
  refine ⟨?_, List.sorted_insertionSort _ _, List.perm_insertionSort _ _⟩
  unfold get_datasets_names_df
  rw [h]
  rfl

/-- Concrete instantiation of `datasets_df_sorted`: a catalog walked in the
order 2023-02, 2023-01 comes out of the sort with the 2023-01 entries
first. -/
theorem datasets_df_sorted_witness :
    get_datasets_names unsortedCatalogFS = .ok unsortedCatalogEntries ∧
    (get_datasets_names_df unsortedCatalogFS
        = (unsortedCatalogEntries.insertionSort (boolRel entryLe)).mapM
            astypeEntry ∧
      List.Sorted (boolRel entryLe)
        (unsortedCatalogEntries.insertionSort (boolRel entryLe)) ∧
      (unsortedCatalogEntries.insertionSort (boolRel entryLe)).Perm
        unsortedCatalogEntries) ∧
    (unsortedCatalogEntries.insertionSort (boolRel entryLe)).map
        (fun e => e.month) = ["01", "01", "01", "02", "02", "02"] :=
  ⟨rfl, datasets_df_sorted unsortedCatalogFS unsortedCatalogEntries rfl,
   by decide⟩

/-- Claim C9 (amended): `get_datasets_names` raises
`Exception("Path ... does not exists")` whenever the root does not exist —
and then no catalog entries are produced, the walk never starting — but
root nonexistence is not the only error source: the walk succeeds exactly
when the root exists and every leaf period directory is well formed (its
name splits on `-` into exactly two parts and it holds at least three
files). -/
theorem catalog_error_characterization :
    (∀ fs : RootFS, fs.present = false →
        get_datasets_names fs = .error "Exception: Path does not exists") ∧
    (∀ fs : RootFS, (∃ l, get_datasets_names fs = .ok l) ↔
        (fs.present = true ∧ ∀ d ∈ fs.periods, periodWellFormed d = true)) := by
  constructor
  · intro fs h
    rw [get_datasets_names, if_pos h]
  · intro fs
    rw [get_datasets_names]
    cases hp : fs.present with
    | false => simp [hp]
    | true => simp [hp, walkPeriods_ok_iff]

/-- Concrete instantiation of `catalog_error_characterization` on a missing
root. -/
theorem catalog_error_characterization_witness :
    missingRootFS.present = false ∧
    get_datasets_names missingRootFS
      = .error "Exception: Path does not exists" :=
  ⟨rfl, catalog_error_characterization.1 missingRootFS rfl⟩

/-- Claim C10: `full_datasets_groupby` concatenates the per-file grouped
results in catalog order with no cross-file merging: the output is the
flattening of one grouped block per cataloged file, and within each block
every group-key tuple appears at most once (so a tuple shared by two files
yields one row per file, each with that file's own sum). -/
theorem full_groupby_concat (files : List (String × List CsvRow))
    (by_ : List String) (l : List (List String × Int))
    (h : full_datasets_groupby files by_ = .ok l) :
    ∃ parts : List (List (List String × Int)),
      files.mapM (fun f => file_groupby by_ f.2) = .ok parts ∧
      l = parts.flatten ∧
      parts.length = files.length ∧
      ∀ p ∈ parts, (p.map Prod.fst).Nodup := by
  induction files generalizing l with
  | nil =>
    refine ⟨[], rfl, ?_, rfl, by simp⟩
    exact (Except.ok.inj h).symm
  | cons f fs ih =>
    have h' : (file_groupby by_ f.2 >>= fun g =>
        aggregateFiles by_ fs >>= fun rest =>
          Except.ok (g ++ rest)) = .ok l := h
    obtain ⟨g, hg, h2⟩ := except_bind_eq_ok h'
    obtain ⟨rest, hrest, h3⟩ := except_bind_eq_ok h2
    obtain ⟨parts, hparts, hflat, hlen, hnd⟩ := ih rest hrest
    refine ⟨g :: parts, ?_, ?_, ?_, ?_⟩
    · rw [List.mapM_cons, hg, hparts]
      rfl
    · rw [List.flatten_cons, ← hflat]
      exact (Except.ok.inj h3).symm
    · simp [hlen]
    · intro p hp
      rcases List.mem_cons.mp hp with hcase | hcase
      · rw [hcase]
        exact file_groupby_ok_nodup hg
      · exact hnd p hcase

/-- Concrete instantiation of `full_groupby_concat` on two cataloged files
sharing the group-key tuple `["2023-01-01"]`: the output keeps one row per
file, each with that file's own sum, in catalog order. -/
theorem full_groupby_concat_witness :
    full_datasets_groupby scenarioAggFiles ["day"]
        = .ok [(["2023-01-01"], 7), (["2023-01-01"], 3)] ∧
    (∃ parts : List (List (List String × Int)),
      scenarioAggFiles.mapM (fun f => file_groupby ["day"] f.2) = .ok parts ∧
      [(["2023-01-01"], 7), (["2023-01-01"], 3)] = parts.flatten ∧
      parts.length = scenarioAggFiles.length ∧
      ∀ p ∈ parts, (p.map Prod.fst).Nodup) :=
  ⟨rfl, full_groupby_concat scenarioAggFiles ["day"]
    [(["2023-01-01"], 7), (["2023-01-01"], 3)] rfl⟩

end ClaimTheorems

end MobiCat

